import Mathlib

/-
Verification of the pyepics-compatibility PV client facade
(caproto/threading/pyepics_compat.py).

The definitions below are a shallow embedding of that module: each `def`
transcribes one function (or one contiguous block) of the Python source,
keeping the source's names and branch structure.  Machine-level details that
the module itself does not touch (wire decoding, numpy internals, sockets)
are represented abstractly: a raw value array is a `List Int`, a decoded
text is a `String`, and exceptions are an explicit error type.
-/

namespace PyepicsCompat

/-- Channel data type codes used by the module.  Modelled from the spec:
the protocol's type classification char/string/enum/numeric together with
its form variants (native / status / time / graphic / control), which the
module imports (as caproto.ChannelType) from the protocol layer outside
this unit.  Only the codes reachable from this module are included. -/
inductive ChannelType where
  | STRING | INT | FLOAT | ENUM | CHAR | LONG | DOUBLE
  | STS_STRING | STS_INT | STS_CHAR | STS_ENUM
  | TIME_STRING | TIME_INT | TIME_CHAR | TIME_ENUM
  | GR_STRING | GR_INT | GR_CHAR | GR_ENUM
  | CTRL_STRING | CTRL_INT | CTRL_CHAR | CTRL_ENUM
  deriving DecidableEq, Repr

/-- Modelled from the spec: the character-type classification (all form
variants of CHAR), i.e. caproto's char_types tuple. -/
def char_types : List ChannelType :=
  [.CHAR, .STS_CHAR, .TIME_CHAR, .GR_CHAR, .CTRL_CHAR]

/-- Modelled from the spec: the string-type classification (all form
variants of STRING), i.e. caproto's string_types tuple. -/
def string_types : List ChannelType :=
  [.STRING, .STS_STRING, .TIME_STRING, .GR_STRING, .CTRL_STRING]

/-- Modelled from the spec: the enumerated-type classification (all form
variants of ENUM), i.e. caproto's enum_types tuple. -/
def enum_types : List ChannelType :=
  [.ENUM, .STS_ENUM, .TIME_ENUM, .GR_ENUM, .CTRL_ENUM]

/-- Python list indexing semantics, `l[i]` for a possibly negative index:
a negative index counts from the end; an index out of range on either side
is an IndexError, modelled as `none`. -/
def pyListGet (l : List α) (i : Int) : Option α :=
  if 0 ≤ i then l.get? i.toNat
  else if (-i).toNat ≤ l.length then l.get? (l.length - (-i).toNat)
  else none

/-- The shape of a value after `_scalarify`: either kept in array form or
unwrapped to the bare single element (`data[0]`). -/
inductive PyData where
  | arr (l : List Int)
  | scalar (i : Int)
  deriving DecidableEq, Repr

/-- Transcribes `_scalarify(data, ntype, count)` (lines 120-123):
collapse to the bare element when `count == 1 and ntype not in
(ChannelType.CHAR, ChannelType.STRING)`; `none` models the IndexError of
`data[0]` on an empty array. -/
def _scalarify (data : List Int) (ntype : ChannelType) (count : Nat) :
    Option PyData :=
  if count = 1 ∧ ntype ≠ ChannelType.CHAR ∧ ntype ≠ ChannelType.STRING then
    data.head?.map PyData.scalar
  else some (PyData.arr data)

/-- Result of `_pyepics_get_value`.  `display sv` is the branch that
returns the `string_value` argument unchanged; the remaining constructors
tag which of the later return paths produced the value. -/
inductive GetResult (σ : Type) where
  | display (sv : σ)
  | enumText (l : List String)
  | enumTextOne (s : String)
  | scalarInt (i : Int)
  | pyList (l : List Int)
  | ndarray (l : List Int)
  deriving DecidableEq, Repr

/-- Exception classes raised (or caught) by the module.  Modelled from the
spec: the error taxonomy separates Connection/Timeout failures from Value
and Access failures, so a ValueError is never a TimeoutError. -/
inductive ExcClass where
  | timeout
  | valueError
  | accessRights
  | runtimeError
  | notImplemented
  | other
  deriving DecidableEq, Repr

/-- Python `except TimeoutError` catches exactly the timeout class
(CaprotoTimeoutError derives from TimeoutError; value/access errors do
not).  Modelled from the spec error taxonomy. -/
def isTimeoutError : ExcClass → Bool
  | .timeout => true
  | _ => false

/-- Transcribes `_pyepics_get_value(value, string_value, full_type,
native_count, *, requested_count, enum_strings, as_string, as_numpy)`
(lines 126-157).  Python operator precedence makes the first condition
`(as_string and full_type in char_types) or full_type in string_types`.
The final byte-swap only normalizes byte order, so both tail paths return
the array itself here. -/
def _pyepics_get_value (value : List Int) (string_value : σ)
    (full_type : ChannelType) (native_count : Nat)
    (requested_count : Option Nat) (enum_strings : Option (List String))
    (as_string as_numpy : Bool) : Except ExcClass (GetResult σ) :=
  if (as_string = true ∧ full_type ∈ char_types) ∨ full_type ∈ string_types then
    Except.ok (GetResult.display string_value)
  else if as_string = true ∧ full_type ∈ enum_types then
    match enum_strings with
    | none => Except.error ExcClass.valueError
    | some es =>
      match value.map (fun r => (pyListGet es r).getD "") with
      | [s] => Except.ok (GetResult.enumTextOne s)
      | ret => Except.ok (GetResult.enumText ret)
  else if native_count = 1 ∧ value.length = 1 then
    if requested_count.isNone then Except.ok (GetResult.scalarInt (value.headD 0))
    else Except.ok (GetResult.ndarray value)
  else if as_numpy = false then Except.ok (GetResult.pyList value)
  else Except.ok (GetResult.ndarray value)

/-- Transcribes line 101 of `_read_response_to_pyepics`:
`enum_strings = info.get('enum_strs', None) or enum_strings` — the
response's enum-name list is used unless it is absent or empty (falsy), in
which case the caller-supplied list is used. -/
def effective_enum_strings (resp caller : Option (List String)) :
    Option (List String) :=
  match resp with
  | some l => if l = [] then caller else some l
  | none => caller

/-- Transcribes the per-element display-text computation of the enum
branch of `_read_response_to_pyepics` (lines 102-110): with no name list
at all, every element is the unresolved marker None; otherwise
`enum_strings[idx] if 0 <= idx < len(enum_strings) else ''`. -/
def enum_char_list (resp caller : Option (List String)) (value : List Int) :
    List (Option String) :=
  match effective_enum_strings resp caller with
  | none => value.map (fun _ => none)
  | some es =>
    value.map (fun idx =>
      some (if 0 ≤ idx ∧ idx < (es.length : Int) then es.getD idx.toNat "" else ""))

/-- The enum display text after the single-element unwrap (lines 111-112). -/
inductive EnumCharValue where
  | one (o : Option String)
  | many (l : List (Option String))
  deriving DecidableEq, Repr

/-- The enum branch of `_read_response_to_pyepics`, including the
single-element unwrap (`if len(char_value) == 1: char_value = char_value[0]`). -/
def enum_char_value (resp caller : Option (List String)) (value : List Int) :
    EnumCharValue :=
  match enum_char_list resp caller value with
  | [x] => EnumCharValue.one x
  | cv => EnumCharValue.many cv

/-- The connection-relevant state of one PV handle.
`caproto_connected` is the underlying channel's own connected flag
(`self._caproto_pv.connected`); `connect_event` is
`self._connect_event.is_set()`; `local_connected` is `self._connected`;
`post_processed` records that `_connection_established` captured native
type/count/access into `self._args`. -/
structure PVConnState where
  caproto_connected : Bool
  connect_event : Bool
  local_connected : Bool
  post_processed : Bool
  deriving DecidableEq, Repr

/-- The state at construction (lines 217-218): `self._connected = False`,
fresh (unset) `threading.Event`, channel not yet connected. -/
def initPVConnState : PVConnState :=
  { caproto_connected := false, connect_event := false,
    local_connected := false, post_processed := false }

/-- Transcribes the `connected` property (lines 265-268):
`self._caproto_pv.connected and self._connect_event.is_set()`. -/
def connected (s : PVConnState) : Bool :=
  s.caproto_connected && s.connect_event

/-- Transcribes `_connection_established` (lines 307-330): capture native
type/count/access from the channel, then set the local connected flag. -/
def connection_established (s : PVConnState) : PVConnState :=
  { s with post_processed := true, local_connected := true }

/-- Transcribes `_connection_state_changed` (lines 345-363) for one
notification.  The underlying channel flips its own connected flag before
delivering the notification (spec section 6: the channel abstraction owns
`channel.connected`), so a connected notification arrives with the channel
flag true and a disconnected one with it false.  On connect the handle
runs `_connection_established` under the state lock and sets the connect
event in the `finally` block; on disconnect it changes no local state. -/
def connection_state_changed (s : PVConnState) (chanConnected : Bool) :
    PVConnState :=
  if chanConnected then
    { connection_established { s with caproto_connected := true } with
        connect_event := true }
  else
    { s with caproto_connected := false }

/-- A handle's view after a sequence of connection-state notifications. -/
def apply_notifications (s : PVConnState) (tr : List Bool) : PVConnState :=
  tr.foldl connection_state_changed s

/-- The mutable inputs of the read decision in `get_with_metadata`:
whether a live auto-monitor subscription exists
(`self._auto_monitor_sub is not None`) and the cached value
(`self._args['value']`). -/
structure GetReadState where
  auto_monitor_sub : Bool
  cached_value : Option (List Int)
  deriving DecidableEq, Repr

/-- Transcribes `re_map` (lines 451-454): character type codes mapped to
their integer-equivalent codes; any other key is a KeyError (`none`). -/
def char_int_re_map : ChannelType → Option ChannelType
  | .CHAR => some .INT
  | .CTRL_CHAR => some .CTRL_INT
  | .TIME_CHAR => some .TIME_INT
  | .STS_CHAR => some .STS_INT
  | _ => none

/-- The effective `use_monitor` flag after lines 450-458: forced false for
character-typed data requested without string formatting. -/
def forced_use_monitor (use_monitor as_string : Bool) (dt : ChannelType) :
    Bool :=
  if as_string = false ∧ dt ∈ char_types then false else use_monitor

/-- Transcribes the read trigger (lines 462-466): a network read is needed
when `(not use_monitor) or (self._auto_monitor_sub is None) or
(cached_value is None) or (count is not None and count > len(cached_value))`. -/
def needs_network_read (st : GetReadState) (use_monitor as_string : Bool)
    (dt : ChannelType) (count : Option Nat) : Bool :=
  let um := forced_use_monitor use_monitor as_string dt
  !um || !st.auto_monitor_sub || st.cached_value.isNone ||
    (match count, st.cached_value with
     | some c, some v => decide (v.length < c)
     | _, _ => false)

/-- Lines 449-466 of `get_with_metadata` as one step: remap the request
type code for non-string character reads (KeyError propagates as an
error), then decide whether a network read is issued.  Returns the
decision together with the data type the read would use. -/
def read_decision (st : GetReadState) (use_monitor as_string : Bool)
    (dt : ChannelType) (count : Option Nat) :
    Except ExcClass (Bool × ChannelType) :=
  match (if as_string = false ∧ dt ∈ char_types
         then char_int_re_map dt else some dt) with
  | none => Except.error ExcClass.other
  | some dt2 =>
    Except.ok (needs_network_read st use_monitor as_string dt count, dt2)

/-- The caller-supplied value of `PV.put`, before normalization. -/
inductive PutValue where
  | pyStr (s : String)
  | pyNum (i : Int)
  | numList (l : List Int)
  | strList (l : List String)
  deriving DecidableEq, Repr

/-- The normalized value handed to `self._caproto_pv.write`. -/
inductive WriteData where
  | charBytes (s : String)
  | encodedStrs (l : List String)
  | rawStrs (l : List String)
  | nums (l : List Int)
  deriving DecidableEq, Repr

/-- The arguments of the one `write` call issued by `PV.put`. -/
structure WriteCall where
  data : WriteData
  wait : Bool
  notify : Bool
  deriving DecidableEq, Repr

/-- The slice of the handle's cached state that `PV.put` reads or writes:
write access, the full type, the cached enum-name list, and the
put-complete flag (tri-state: unset / false / true, as in Python
None/False/True). -/
structure PutArgs where
  write_access : Bool
  typefull : ChannelType
  enum_strs : Option (List String)
  put_complete : Option Bool
  deriving DecidableEq, Repr

/-- Transcribes lines 537-543 of `PV.put`: for an enumerated destination,
a text value is resolved to its index with `self.enum_strs.index(value)`;
a missing name list is an attribute error (`other`), an unknown name a
ValueError.  Non-text values and non-enum destinations pass through. -/
def resolve_enum_value (st : PutArgs) (value : PutValue) :
    Except (ExcClass × PutArgs) PutValue :=
  if st.typefull ∈ enum_types then
    match value with
    | .pyStr s =>
      match st.enum_strs with
      | none => Except.error (ExcClass.other, st)
      | some es =>
        match es.indexOf? s with
        | some i => Except.ok (PutValue.pyNum (i : Int))
        | none => Except.error (ExcClass.valueError, st)
    | v => Except.ok v
  else Except.ok value

/-- Transcribes lines 545-555 of `PV.put` (fused): a plain string for a
character-typed destination gets a null terminator appended and is
encoded to bytes; any other plain string is wrapped as a one-element
tuple and (being a string sequence) encoded elementwise; a non-iterable
is wrapped as a one-element tuple; a nonempty sequence whose first
element is a string is encoded elementwise; an empty string sequence is
passed through unencoded. -/
def normalize_put_value (tf : ChannelType) : PutValue → WriteData
  | .pyStr s =>
    if tf ∈ char_types then WriteData.charBytes (s.push (Char.ofNat 0))
    else WriteData.encodedStrs [s]
  | .pyNum i => WriteData.nums [i]
  | .numList l => WriteData.nums l
  | .strList l =>
    if l.isEmpty then WriteData.rawStrs l else WriteData.encodedStrs l

/-- Transcribes `PV.put` (lines 525-578) up to the `write` call.  An
exception outcome carries the handle state at raise time (so atomicity of
the cache on error is visible); a normal outcome carries the state after
the `put_complete` update together with the issued `WriteCall`.
`notify = any((use_complete, callback is not None, wait))`; when notify is
false, `wait` is forced false before the write. -/
def put (st : PutArgs) (value : PutValue)
    (wait use_complete has_callback : Bool) :
    Except (ExcClass × PutArgs) (PutArgs × WriteCall) :=
  if st.write_access = false then
    Except.error (ExcClass.accessRights, st)
  else
    match resolve_enum_value st value with
    | Except.error e => Except.error e
    | Except.ok v1 =>
      if (use_complete || has_callback || wait) = true then
        Except.ok
          ((if use_complete then { st with put_complete := some false }
            else st),
           { data := normalize_put_value st.typefull v1, wait := wait,
             notify := use_complete || has_callback || wait })
      else
        Except.ok
          (st, { data := normalize_put_value st.typefull v1, wait := false,
                 notify := use_complete || has_callback || wait })

/-- The callback registry of one handle: `self._cb_count` (the next value
of the `itertools.count()` iterator) and `self.callbacks` (a dict from
index to the (callback, extra-kwargs) pair, here an insertion-ordered
association list, which is exactly a Python dict's iteration order). -/
structure Registry (α : Type) where
  cb_count : Nat
  callbacks : List (Nat × α)
  deriving Repr

/-- The registry at construction with no initial callback (lines 235, 244):
counter at zero, empty dict. -/
def Registry.init : Registry α :=
  { cb_count := 0, callbacks := [] }

/-- Transcribes `add_callback` (lines 672-697), registry part: reject a
non-callable and a caller-supplied explicit index with a ValueError, else
allocate `next(self._cb_count)` and store the entry under it. -/
def add_callback (r : Registry α) (cb : α) (callable : Bool)
    (index : Option Nat) : Except ExcClass (Registry α × Nat) :=
  if callable = false then Except.error ExcClass.valueError
  else if index.isSome then Except.error ExcClass.valueError
  else
    Except.ok ({ cb_count := r.cb_count + 1,
                 callbacks := r.callbacks ++ [(r.cb_count, cb)] }, r.cb_count)

/-- Transcribes `remove_callback` (lines 699-701):
`self.callbacks.pop(index, None)` — a no-op on a missing index. -/
def remove_callback (r : Registry α) (i : Nat) : Registry α :=
  { cb_count := r.cb_count, callbacks := r.callbacks.filter (fun p => p.1 ≠ i) }

/-- Transcribes `clear_callbacks` (lines 703-705): the dict is replaced by
an empty one; the counter iterator is untouched. -/
def clear_callbacks (r : Registry α) : Registry α :=
  { cb_count := r.cb_count, callbacks := [] }

/-- Python `sorted` on a list of indices (an ascending stable sort),
structurally recursive so that concrete dispatches evaluate. -/
def insertSorted (i : Nat) : List Nat → List Nat
  | [] => [i]
  | j :: rest => if i ≤ j then i :: j :: rest else j :: insertSorted i rest

/-- Python `sorted(list(keys))`. -/
def pySorted : List Nat → List Nat
  | [] => []
  | i :: rest => insertSorted i (pySorted rest)

/-- Transcribes `run_callbacks` + `run_callback` (lines 640-670) as the
dispatch it performs: for each registered index in ascending order, look
the entry up (a KeyError skips it) and invoke it with a snapshot copy of
the current cache (`kwd = copy.copy(self._args)`).  The result lists each
invocation as (index, entry, cache snapshot it received). -/
def run_callbacks (r : Registry α) (args : β) : List (Nat × α × β) :=
  (pySorted (r.callbacks.map Prod.fst)).filterMap
    (fun i => (List.lookup i r.callbacks).map (fun cb => (i, cb, args)))

/-- The registry operations a handle's lifetime can interleave. -/
inductive RegOp (α : Type) where
  | add (cb : α)
  | remove (i : Nat)
  | clear

/-- One registry operation; a (valid) add also yields the index it
assigned. -/
def apply_op (r : Registry α) : RegOp α → Registry α × Option Nat
  | .add cb =>
    match add_callback r cb true none with
    | Except.ok (r2, i) => (r2, some i)
    | Except.error _ => (r, none)
  | .remove i => (remove_callback r i, none)
  | .clear => (clear_callbacks r, none)

/-- A lifetime of registry operations: the final registry and the indices
assigned by the adds, in order. -/
def run_ops (r : Registry α) : List (RegOp α) → Registry α × List Nat
  | [] => (r, [])
  | op :: rest =>
    match apply_op r op with
    | (r2, none) => run_ops r2 rest
    | (r2, some i) =>
      ((run_ops r2 rest).1, i :: (run_ops r2 rest).2)

/-- How `caput_many` processes `wait`: False, 'each', or 'all'. -/
inductive WaitMode where
  | noWait
  | each
  | all
  deriving DecidableEq, Repr

/-- The outcome of one name/value pair in `caput_many`: the exception (if
any) raised by `p.wait_for_connection(...)` or `p.put(...)`, and whether
`p.connected and p.put_complete` holds when the wait-all poll finishes. -/
structure PairOutcome where
  exc : Option ExcClass
  completed : Bool
  deriving DecidableEq, Repr

/-- The per-pair loop of `caput_many` (lines 1124-1132): `except
TimeoutError` records -1 and continues; any other exception propagates
out of the whole call; success records 1. -/
def caput_many_statuses : List PairOutcome → Except ExcClass (List Int)
  | [] => Except.ok []
  | oc :: rest =>
    match oc.exc with
    | none => (caput_many_statuses rest).map (fun l => 1 :: l)
    | some e =>
      if isTimeoutError e then
        (caput_many_statuses rest).map (fun l => -1 :: l)
      else Except.error e

/-- Transcribes `caput_many` (lines 1092-1143).  The length mismatch check
raises a ValueError; the per-pair loop runs over the zipped pairs (the
`outcomes` list, one entry per pair, supplies each pair's network
behaviour); without wait='all' the statuses are returned (normalized to
1 / -1); with wait='all' the poll loop ends and each pair reports 1
exactly when `p.connected and p.put_complete`. -/
def caput_many (names : List String) (values : List Int) (wait : WaitMode)
    (outcomes : List PairOutcome) : Except ExcClass (List Int) :=
  if names.length ≠ values.length then Except.error ExcClass.valueError
  else
    match caput_many_statuses outcomes with
    | Except.error e => Except.error e
    | Except.ok out =>
      if wait = WaitMode.all then
        Except.ok (outcomes.map (fun oc => if oc.completed then 1 else -1))
      else
        Except.ok (out.map (fun o => if o = 1 then o else -1))

/-- A PV handle as far as `__eq__` can see it (identity fields). -/
structure PVHandle where
  pvname : String
  deriving DecidableEq, Repr

/-- Transcribes `PV.__eq__` (lines 957-959): returns False
unconditionally. -/
def pv_eq (a b : PVHandle) : Bool := false

/-- Well-formedness of a registry: the dict's keys (in insertion order)
are strictly increasing, and all are below the counter's next value.
Every registry reachable from `Registry.init` satisfies this. -/
def RegistryWF (r : Registry α) : Prop :=
  (r.callbacks.map Prod.fst).Pairwise (· < ·) ∧
  ∀ k ∈ r.callbacks.map Prod.fst, k < r.cb_count

/-- C10: equality on PV handles is never true — `PV.__eq__` returns False
for every pair of handles, including a handle compared with itself, so PV
equality is not reflexive. -/
theorem claim10_pv_eq_never_true :
    ∀ a b : PVHandle, pv_eq a b = false ∧ pv_eq a a = false := by
  intro a b
  exact ⟨rfl, rfl⟩

/-- C5 counterexample: with `as_string = False` and a string-typed full
type, `_pyepics_get_value` returns the display (char) value, not the raw
value path, because the condition parses as
`(as_string and char) or string`.  The claim that the raw path is taken
for every type when `as_string` is false is therefore wrong for string
types. -/
theorem claim5_counterexample :
    _pyepics_get_value [0] "text" ChannelType.STRING 1 none none false true
      = Except.ok (GetResult.display "text") ∧
    ChannelType.STRING ∈ string_types ∧
    GetResult.display "text" ≠ (GetResult.scalarInt 0 : GetResult String) := by
  refine ⟨rfl, by decide, by decide⟩

/-- C5 (amended): `_pyepics_get_value` returns the display (char) value
exactly when `as_string` is true and the full type is a character type,
or the full type is a string type regardless of `as_string`; in all other
cases another (raw value) path is taken. -/
theorem claim5_display_rule :
    ∀ (value : List Int) (sv : String) (ft : ChannelType) (nc : Nat)
      (rc : Option Nat) (es : Option (List String)) (as_string as_numpy : Bool),
    _pyepics_get_value value sv ft nc rc es as_string as_numpy
        = Except.ok (GetResult.display sv)
      ↔ ((as_string = true ∧ ft ∈ char_types) ∨ ft ∈ string_types) := by
  intro value sv ft nc rc es as_string as_numpy
  constructor
  · intro h
    by_contra hc
    unfold _pyepics_get_value at h
    rw [if_neg hc] at h
    by_cases h2 : as_string = true ∧ ft ∈ enum_types
    · rw [if_pos h2] at h
      cases es with
      | none => exact absurd h (by simp)
      | some l =>
        split at h
        · simp at h
        · split at h <;> simp at h
    · rw [if_neg h2] at h
      by_cases h3 : nc = 1 ∧ value.length = 1
      · rw [if_pos h3] at h
        cases rc <;> simp at h
      · rw [if_neg h3] at h
        cases as_numpy <;> simp at h
  · intro hc
    unfold _pyepics_get_value
    rw [if_pos hc]

/-- C6 counterexample: a count-1 response with value type TIME_CHAR — a
character type — is collapsed to a bare scalar by `_scalarify`, because
the source checks only the exact codes CHAR and STRING.  The claim that
character/string-typed values are kept in array form is therefore wrong
for the form variants. -/
theorem claim6_counterexample :
    _scalarify [7] ChannelType.TIME_CHAR 1 = some (PyData.scalar 7) ∧
    ChannelType.TIME_CHAR ∈ char_types ∧
    some (PyData.scalar 7) ≠ some (PyData.arr [7]) := by
  refine ⟨by decide, by decide, by decide⟩

/-- C6 (amended): `_scalarify` unwraps the single element exactly when
the declared count is 1 and the value type is neither of the exact native
codes CHAR and STRING (form variants such as TIME_CHAR are unwrapped
too); otherwise the array form is kept.  Consequently, `get()` on a
native-count-1 numeric channel yields a bare scalar and on native count
greater than 1 an array of that same length. -/
theorem claim6_scalar_collapse :
    ∀ (data : List Int) (nt : ChannelType) (count : Nat),
    (count = 1 ∧ nt ≠ ChannelType.CHAR ∧ nt ≠ ChannelType.STRING →
       _scalarify data nt count = data.head?.map PyData.scalar) ∧
    (¬(count = 1 ∧ nt ≠ ChannelType.CHAR ∧ nt ≠ ChannelType.STRING) →
       _scalarify data nt count = some (PyData.arr data)) ∧
    (∀ (sv : String) (x : Int) (es : Option (List String)),
       nt ∉ char_types → nt ∉ string_types →
       _pyepics_get_value [x] sv nt 1 none es false true
         = Except.ok (GetResult.scalarInt x)) ∧
    (∀ (sv : String) (l : List Int) (es : Option (List String)) (nc : Nat),
       nt ∉ char_types → nt ∉ string_types → nc ≠ 1 →
       _pyepics_get_value l sv nt nc none es false true
         = Except.ok (GetResult.ndarray l)) := by
  intro data nt count
  refine ⟨?_, ?_, ?_, ?_⟩
  · intro h
    unfold _scalarify
    rw [if_pos h]
  · intro h
    unfold _scalarify
    rw [if_neg h]
  · intro sv x es h1 h2
    unfold _pyepics_get_value
    rw [if_neg (by simp [h1, h2]), if_neg (by simp), if_pos (by simp)]
    rfl
  · intro sv l es nc h1 h2 h3
    unfold _pyepics_get_value
    rw [if_neg (by simp [h1, h2]), if_neg (by simp), if_neg (by simp [h3]),
        if_neg (by simp)]

/-- C6 witness: the amended collapse rule evaluated at a concrete
numeric count-1 input. -/
theorem claim6_scalar_collapse_witness :
    _scalarify [5] ChannelType.DOUBLE 1 = some (PyData.scalar 5) :=
  (claim6_scalar_collapse [5] ChannelType.DOUBLE 1).1 (by decide)

/-- C7: the enum display-text translation resolves each raw index against
the response's enum-name list, falling back to the caller-supplied list
when the response carries none (absent or empty); an in-range index
yields the name, an out-of-range index yields the empty string, and when
no list is available at all every element is the unresolved marker
`none` — a tri-state distinct from both an error and empty text. -/
theorem claim7_enum_tri_state :
    ∀ (resp caller : Option (List String)) (value : List Int)
      (i : Nat) (idx : Int),
    value.get? i = some idx →
    (((resp = none ∨ resp = some []) →
        effective_enum_strings resp caller = caller) ∧
     (∀ l, resp = some l → l ≠ [] →
        effective_enum_strings resp caller = some l) ∧
     (effective_enum_strings resp caller = none →
        (enum_char_list resp caller value).get? i = some none) ∧
     (∀ es, effective_enum_strings resp caller = some es →
        (0 ≤ idx → idx < (es.length : Int) →
           (enum_char_list resp caller value).get? i
             = some (some (es.getD idx.toNat ""))) ∧
        (¬(0 ≤ idx ∧ idx < (es.length : Int)) →
           (enum_char_list resp caller value).get? i = some (some "")))) := by
  intro resp caller value i idx h
  refine ⟨?_, ?_, ?_, ?_⟩
  · intro hr
    rcases hr with hr | hr <;> simp [effective_enum_strings, hr]
  · intro l hl hne
    simp [effective_enum_strings, hl, hne]
  · intro he
    unfold enum_char_list
    rw [he]
    show (value.map (fun _ => (none : Option String))).get? i = some none
    rw [List.get?_map, h]
    rfl
  · intro es he
    constructor
    · intro h0 h1
      unfold enum_char_list
      rw [he]
      show (value.map (fun idx =>
          some (if 0 ≤ idx ∧ idx < (es.length : Int)
                then es.getD idx.toNat "" else ""))).get? i
        = some (some (es.getD idx.toNat ""))
      rw [List.get?_map, h, Option.map_some']
      rw [if_pos ⟨h0, h1⟩]
    · intro hn
      unfold enum_char_list
      rw [he]
      show (value.map (fun idx =>
          some (if 0 ≤ idx ∧ idx < (es.length : Int)
                then es.getD idx.toNat "" else ""))).get? i
        = some (some "")
      rw [List.get?_map, h, Option.map_some']
      rw [if_neg hn]

/-- C7 witness: the tri-state evaluated concretely — a response-carried
name list resolves index 1 to its name. -/
theorem claim7_enum_tri_state_witness :
    (enum_char_list (some ["zero", "one"]) none [1]).get? 0
      = some (some "one") :=
  ((claim7_enum_tri_state (some ["zero", "one"]) none [1] 0 1
      rfl).2.2.2 ["zero", "one"] (by decide)).1 (by decide) (by decide)

theorem conn_inv_step (s : PVConnState) (b : Bool)
    (h : s.caproto_connected = true → s.post_processed = true) :
    (connection_state_changed s b).caproto_connected = true →
      (connection_state_changed s b).post_processed = true := by
  cases b <;> simp [connection_state_changed, connection_established]

theorem apply_notifications_inv :
    ∀ (tr : List Bool) (s : PVConnState),
    (s.caproto_connected = true → s.post_processed = true) →
    ((apply_notifications s tr).caproto_connected = true →
      (apply_notifications s tr).post_processed = true) := by
  intro tr
  induction tr with
  | nil => intro s h; exact h
  | cons b rest ih => intro s h; exact ih _ (conn_inv_step s b h)

/-- C1: the `connected` property is the conjunction of the underlying
channel's connected flag and the local connect event; whenever it is
true, the connect event has been set and the connection-state transition
has completed its local post-processing (type/count/access captured); it
is false before any notification has fired, and false again right after
a disconnect notification. -/
theorem claim1_connected_gating :
    ∀ tr : List Bool,
    connected (apply_notifications initPVConnState tr)
        = ((apply_notifications initPVConnState tr).caproto_connected
           && (apply_notifications initPVConnState tr).connect_event) ∧
    (connected (apply_notifications initPVConnState tr) = true →
       (apply_notifications initPVConnState tr).caproto_connected = true ∧
       (apply_notifications initPVConnState tr).connect_event = true ∧
       (apply_notifications initPVConnState tr).post_processed = true) ∧
    connected initPVConnState = false ∧
    (∀ s : PVConnState, connected (connection_state_changed s false) = false) := by
  intro tr
  refine ⟨rfl, ?_, rfl, ?_⟩
  · intro h
    have h1 : (apply_notifications initPVConnState tr).caproto_connected = true ∧
        (apply_notifications initPVConnState tr).connect_event = true := by
      simpa [connected, Bool.and_eq_true] using h
    refine ⟨h1.1, h1.2, ?_⟩
    exact apply_notifications_inv tr initPVConnState (by simp [initPVConnState]) h1.1
  · intro s
    simp [connected, connection_state_changed]

/-- C1 witness: after one connected notification the gating holds with
post-processing completed. -/
theorem claim1_connected_gating_witness :
    (apply_notifications initPVConnState [true]).post_processed = true :=
  ((claim1_connected_gating [true]).2.1 (by decide)).2.2

theorem needs_read_iff (st : GetReadState) (um as_string : Bool)
    (dt : ChannelType) (count : Option Nat) :
    needs_network_read st um as_string dt count = true ↔
      (forced_use_monitor um as_string dt = false ∨
       st.auto_monitor_sub = false ∨
       st.cached_value = none ∨
       ∃ c v, count = some c ∧ st.cached_value = some v ∧ v.length < c) := by
  unfold needs_network_read
  rcases hc : count with _ | c <;> rcases hv : st.cached_value with _ | v <;>
    simp [hc, hv, Bool.or_eq_true, Bool.not_eq_true', or_assoc]

/-- C2: in `get_with_metadata` a network read is issued if and only if
the effective `use_monitor` is false (including when it was forced false
for character-typed data requested without string formatting), or no live
auto-monitor subscription exists, or the cached value is absent, or the
requested count exceeds the length of the cached value; in particular a
count larger than the cached array's length always triggers a read. -/
theorem claim2_read_trigger :
    ∀ (st : GetReadState) (um as_string : Bool) (dt : ChannelType)
      (count : Option Nat) (b : Bool) (dt2 : ChannelType),
    read_decision st um as_string dt count = Except.ok (b, dt2) →
    ((b = true ↔
       (forced_use_monitor um as_string dt = false ∨
        st.auto_monitor_sub = false ∨
        st.cached_value = none ∨
        ∃ c v, count = some c ∧ st.cached_value = some v ∧ v.length < c)) ∧
     (∀ c v, count = some c → st.cached_value = some v → v.length < c →
        b = true)) := by
  intro st um as_string dt count b dt2 h
  have hb : needs_network_read st um as_string dt count = b := by
    unfold read_decision at h
    split at h
    · exact absurd h (by simp)
    · rw [Except.ok.injEq, Prod.mk.injEq] at h
      exact h.1
  subst hb
  refine ⟨needs_read_iff st um as_string dt count, ?_⟩
  intro c v hcv hvv hlt
  exact (needs_read_iff st um as_string dt count).mpr
    (Or.inr (Or.inr (Or.inr ⟨c, v, hcv, hvv, hlt⟩)))

/-- C2 witness: a count of 5 against a cached 2-element value triggers a
read even with monitoring on and a live subscription. -/
theorem claim2_read_trigger_witness :
    read_decision { auto_monitor_sub := true, cached_value := some [1, 2] }
        true true ChannelType.DOUBLE (some 5)
      = Except.ok (true, ChannelType.DOUBLE) ∧ (true : Bool) = true := by
  refine ⟨rfl, ?_⟩
  exact (claim2_read_trigger
    { auto_monitor_sub := true, cached_value := some [1, 2] }
    true true ChannelType.DOUBLE (some 5) true ChannelType.DOUBLE
    rfl).2 5 [1, 2] rfl rfl (by decide)

/-- C4: for a connected, writable PV with an enumerated type and a known
enum-name list, `put` of a text value not in the list fails with a value
error before any write is issued (the error outcome carries the handle
state unchanged — the metadata cache, including `put_complete`, is
untouched); `put` of a text value in the list resolves it to its index
and issues the write with that single index. -/
theorem claim4_enum_put :
    ∀ (st : PutArgs) (es : List String) (s : String) (w uc hc : Bool),
    st.write_access = true → st.typefull ∈ enum_types →
    st.enum_strs = some es →
    ((es.indexOf? s = none →
        put st (PutValue.pyStr s) w uc hc
          = Except.error (ExcClass.valueError, st)) ∧
     (∀ i : Nat, es.indexOf? s = some i →
        ∃ st2 w2 n2, put st (PutValue.pyStr s) w uc hc
          = Except.ok (st2, { data := WriteData.nums [(i : Int)],
                              wait := w2, notify := n2 }))) := by
  intro st es s w uc hc hwa htf hes
  have hre : resolve_enum_value st (PutValue.pyStr s)
      = (match es.indexOf? s with
         | some i => Except.ok (PutValue.pyNum (i : Int))
         | none => Except.error (ExcClass.valueError, st)) := by
    unfold resolve_enum_value
    rw [if_pos htf, hes]
  constructor
  · intro hnone
    unfold put
    rw [if_neg (by simp [hwa]), hre, hnone]
  · intro i hi
    unfold put
    rw [if_neg (by simp [hwa]), hre, hi]
    dsimp only
    by_cases hn : (uc || hc || w) = true
    · rw [if_pos hn]
      exact ⟨_, _, _, rfl⟩
    · rw [if_neg hn]
      exact ⟨_, _, _, rfl⟩

/-- C4 witness: a two-name enum list — the unknown name "c" is rejected
with the state unchanged, evaluated via the theorem at concrete input. -/
theorem claim4_enum_put_witness :
    put { write_access := true, typefull := ChannelType.ENUM,
          enum_strs := some ["a", "b"], put_complete := none }
        (PutValue.pyStr "c") false false false
      = Except.error (ExcClass.valueError,
          { write_access := true, typefull := ChannelType.ENUM,
            enum_strs := some ["a", "b"], put_complete := none }) :=
  (claim4_enum_put
    { write_access := true, typefull := ChannelType.ENUM,
      enum_strs := some ["a", "b"], put_complete := none }
    ["a", "b"] "c" false false false rfl (by decide) rfl).1 (by decide)

/-- C9: the write issued by `put` requests `notify` exactly when at least
one of `use_complete`, a supplied callback, or `wait` is true; when none
of the three is set, the write is issued with `wait` false (a bare put
never blocks on completion). -/
theorem claim9_notify_rule :
    ∀ (st : PutArgs) (value : PutValue) (w uc hc : Bool)
      (st2 : PutArgs) (wc : WriteCall),
    put st value w uc hc = Except.ok (st2, wc) →
    (wc.notify = (uc || hc || w) ∧
     ((uc || hc || w) = false → wc.wait = false)) := by
  intro st value w uc hc st2 wc h
  unfold put at h
  split at h
  · exact absurd h (by simp)
  · split at h
    · exact absurd h (by simp)
    · split at h
      case isTrue hn =>
        rw [Except.ok.injEq, Prod.mk.injEq] at h
        rw [← h.2]
        exact ⟨rfl, fun hf => absurd hn (by simp [hf])⟩
      case isFalse hn =>
        rw [Except.ok.injEq, Prod.mk.injEq] at h
        rw [← h.2]
        exact ⟨rfl, fun _ => rfl⟩

/-- C9 witness: a bare put (no use_complete, no callback, no wait) issues
the write with notify false and wait false. -/
theorem claim9_notify_rule_witness :
    ({ data := WriteData.nums [5], wait := false,
       notify := false } : WriteCall).notify = (false || false || false) :=
  (claim9_notify_rule
    { write_access := true, typefull := ChannelType.DOUBLE,
      enum_strs := none, put_complete := none }
    (PutValue.pyNum 5) false false false
    { write_access := true, typefull := ChannelType.DOUBLE,
      enum_strs := none, put_complete := none }
    { data := WriteData.nums [5], wait := false, notify := false }
    rfl).1

theorem apply_op_add (r : Registry α) (cb : α) :
    apply_op r (RegOp.add cb)
      = ({ cb_count := r.cb_count + 1,
           callbacks := r.callbacks ++ [(r.cb_count, cb)] },
         some r.cb_count) := rfl

theorem apply_op_remove (r : Registry α) (i : Nat) :
    apply_op r (RegOp.remove i) = (remove_callback r i, none) := rfl

theorem apply_op_clear (r : Registry α) :
    apply_op r RegOp.clear = (clear_callbacks r, none) := rfl

theorem wf_init : RegistryWF (Registry.init : Registry α) := by
  simp [RegistryWF, Registry.init]

theorem wf_apply_op (r : Registry α) (op : RegOp α) (h : RegistryWF r) :
    RegistryWF (apply_op r op).1 := by
  obtain ⟨hp, hb⟩ := h
  cases op with
  | add cb =>
    rw [apply_op_add]
    constructor
    · rw [List.map_append, List.pairwise_append]
      refine ⟨hp, List.pairwise_singleton _ _, ?_⟩
      intro a ha b hbm
      simp only [List.map_cons, List.map_nil, List.mem_singleton] at hbm
      subst hbm
      exact hb a ha
    · intro k hk
      rw [List.map_append] at hk
      rcases List.mem_append.mp hk with h1 | h1
      · exact Nat.lt_succ_of_lt (hb k h1)
      · simp only [List.map_cons, List.map_nil, List.mem_singleton] at h1
        subst h1
        exact Nat.lt_succ_self _
  | remove i =>
    rw [apply_op_remove]
    have hsub : ((r.callbacks.filter (fun p => p.1 ≠ i)).map Prod.fst).Sublist
        (r.callbacks.map Prod.fst) :=
      (List.filter_sublist r.callbacks).map Prod.fst
    exact ⟨hp.sublist hsub, fun k hk => hb k (hsub.subset hk)⟩
  | clear =>
    rw [apply_op_clear]
    exact ⟨List.Pairwise.nil, by simp [clear_callbacks]⟩

theorem cb_count_le_apply_op (r : Registry α) (op : RegOp α) :
    r.cb_count ≤ ((apply_op r op).1).cb_count := by
  cases op with
  | add cb => rw [apply_op_add]; exact Nat.le_succ _
  | remove i => rw [apply_op_remove]; exact le_refl _
  | clear => rw [apply_op_clear]; exact le_refl _

theorem run_ops_cons (r : Registry α) (op : RegOp α) (rest : List (RegOp α)) :
    (run_ops r (op :: rest)).1 = (run_ops (apply_op r op).1 rest).1 ∧
    (run_ops r (op :: rest)).2
      = (apply_op r op).2.toList ++ (run_ops (apply_op r op).1 rest).2 := by
  rcases h : apply_op r op with ⟨r2, oi⟩
  cases oi <;> simp [run_ops, h, Option.toList] <;> exact ⟨rfl, rfl⟩

theorem wf_run_ops :
    ∀ (ops : List (RegOp α)) (r : Registry α),
    RegistryWF r → RegistryWF (run_ops r ops).1 := by
  intro ops
  induction ops with
  | nil => intro r h; exact h
  | cons op rest ih =>
    intro r h
    rw [(run_ops_cons r op rest).1]
    exact ih _ (wf_apply_op r op h)

theorem run_ops_assigned :
    ∀ (ops : List (RegOp α)) (r : Registry α),
    (run_ops r ops).2.Pairwise (· < ·) ∧
    (∀ i ∈ (run_ops r ops).2,
       r.cb_count ≤ i ∧ i < (run_ops r ops).1.cb_count) ∧
    r.cb_count ≤ (run_ops r ops).1.cb_count := by
  intro ops
  induction ops with
  | nil =>
    intro r
    exact ⟨List.Pairwise.nil, by simp [run_ops], le_refl _⟩
  | cons op rest ih =>
    intro r
    obtain ⟨hc1, hc2⟩ := run_ops_cons r op rest
    obtain ⟨ihp, ihb, ihc⟩ := ih (apply_op r op).1
    cases op with
    | add cb =>
      rw [apply_op_add] at hc1 hc2 ihp ihb ihc
      simp only [Option.toList, List.singleton_append] at hc2
      refine ⟨?_, ?_, ?_⟩
      · rw [hc2]
        exact List.Pairwise.cons
          (fun j hj => Nat.lt_of_succ_le (ihb j hj).1) ihp
      · rw [hc2, hc1]
        intro i hi
        rcases List.mem_cons.mp hi with h1 | h1
        · subst h1
          exact ⟨le_refl _, Nat.lt_of_lt_of_le (Nat.lt_succ_self _) ihc⟩
        · obtain ⟨hb1, hb2⟩ := ihb i h1
          exact ⟨Nat.le_trans (Nat.le_succ _) hb1, hb2⟩
      · rw [hc1]
        exact Nat.le_trans (Nat.le_succ _) ihc
    | remove i =>
      rw [apply_op_remove] at hc1 hc2 ihp ihb ihc
      simp only [Option.toList, List.nil_append] at hc2
      rw [hc1, hc2]
      exact ⟨ihp, ihb, ihc⟩
    | clear =>
      rw [apply_op_clear] at hc1 hc2 ihp ihb ihc
      simp only [Option.toList, List.nil_append] at hc2
      rw [hc1, hc2]
      exact ⟨ihp, ihb, ihc⟩

theorem insertSorted_of_forall_lt (i : Nat) (l : List Nat)
    (h : ∀ j ∈ l, i < j) : insertSorted i l = i :: l := by
  cases l with
  | nil => rfl
  | cons j t =>
    unfold insertSorted
    rw [if_pos (Nat.le_of_lt (h j (List.mem_cons_self j t)))]

theorem pySorted_eq_of_pairwise :
    ∀ l : List Nat, l.Pairwise (· < ·) → pySorted l = l := by
  intro l
  induction l with
  | nil => intro _; rfl
  | cons i t ih =>
    intro h
    rw [List.pairwise_cons] at h
    unfold pySorted
    rw [ih h.2]
    exact insertSorted_of_forall_lt i t h.1

theorem lookup_cons_of_ne (j k : Nat) (c : α) (t : List (Nat × α))
    (hne : j ≠ k) : List.lookup j ((k, c) :: t) = List.lookup j t := by
  have hb : (j == k) = false := by simp [hne]
  simp [List.lookup, hb]

theorem filterMap_lookup_eq (args : β) :
    ∀ (l : List (Nat × α)),
    (l.map Prod.fst).Pairwise (· < ·) →
    (l.map Prod.fst).filterMap
        (fun i => (List.lookup i l).map (fun cb => (i, cb, args)))
      = l.map (fun p => (p.1, p.2, args)) := by
  intro l
  induction l with
  | nil => intro _; rfl
  | cons p t ih =>
    intro hp
    obtain ⟨k, c⟩ := p
    rw [List.map_cons] at hp ⊢
    rw [List.pairwise_cons] at hp
    rw [List.filterMap_cons]
    have hk : List.lookup k ((k, c) :: t) = some c := by simp [List.lookup]
    rw [hk, Option.map_some']
    dsimp only
    congr 1
    rw [← ih hp.2]
    apply List.filterMap_congr
    intro i hi
    have hne : i ≠ k := Nat.ne_of_gt (hp.1 i hi)
    rw [lookup_cons_of_ne i k c t hne]

theorem run_callbacks_eq (r : Registry α) (args : β) (h : RegistryWF r) :
    run_callbacks r args = r.callbacks.map (fun p => (p.1, p.2, args)) := by
  unfold run_callbacks
  rw [pySorted_eq_of_pairwise _ h.1]
  exact filterMap_lookup_eq args r.callbacks h.1

/-- C8: over any lifetime of add/remove/clear operations starting from a
fresh handle, the indices assigned by `add_callback` are strictly
increasing (hence never reused, even after `remove_callback` or
`clear_callbacks`), and `run_callbacks` dispatches exactly the registered
callbacks in ascending index order, each invocation receiving the same
cache snapshot. -/
theorem claim8_callback_registry :
    ∀ (α β : Type) (ops : List (RegOp α)) (args : β),
    (run_ops (Registry.init : Registry α) ops).2.Pairwise (· < ·) ∧
    ((run_ops (Registry.init : Registry α) ops).1.callbacks.map
        Prod.fst).Pairwise (· < ·) ∧
    run_callbacks (run_ops (Registry.init : Registry α) ops).1 args
      = (run_ops (Registry.init : Registry α) ops).1.callbacks.map
          (fun p => (p.1, p.2, args)) := by
  intro α β ops args
  have hwf := wf_run_ops ops (Registry.init : Registry α) wf_init
  exact ⟨(run_ops_assigned ops Registry.init).1, hwf.1,
         run_callbacks_eq _ args hwf⟩

theorem caput_many_statuses_ok :
    ∀ outcomes : List PairOutcome,
    (∀ oc ∈ outcomes, oc.exc = none ∨ oc.exc = some ExcClass.timeout) →
    caput_many_statuses outcomes
      = Except.ok (outcomes.map
          (fun oc => if oc.exc = none then (1 : Int) else -1)) := by
  intro outcomes
  induction outcomes with
  | nil => intro _; rfl
  | cons oc rest ih =>
    intro h
    have hrest : ∀ o ∈ rest, o.exc = none ∨ o.exc = some ExcClass.timeout :=
      fun o ho => h o (List.mem_cons_of_mem oc ho)
    rcases h oc (List.mem_cons_self oc rest) with h1 | h1 <;>
      simp [caput_many_statuses, h1, isTimeoutError, ih hrest, Except.map]

/-- C3 counterexample: a per-pair ValueError (e.g. an unresolvable enum
string in `put`) is not caught by the loop's `except TimeoutError` and
propagates out of `caput_many` instead of being recorded as a -1 status,
so the returned value is an exception rather than a status list. -/
theorem claim3_counterexample :
    caput_many ["x"] [0] WaitMode.noWait
        [{ exc := some ExcClass.valueError, completed := false }]
      = Except.error ExcClass.valueError ∧
    ∃ e, Except.error e
      = caput_many ["x"] [0] WaitMode.noWait
          [{ exc := some ExcClass.valueError, completed := false }] := by
  exact ⟨rfl, ⟨ExcClass.valueError, rfl⟩⟩

/-- C3 (amended): when every per-pair failure is a timeout-class
exception (the only class the loop's `except TimeoutError` catches),
`caput_many` returns one integer status per input name in input order:
1 when the pair's connect-and-put succeeded (and, for wait='all', the
handle reports connected with put-complete within the put timeout), -1
otherwise; a non-timeout per-pair exception instead propagates (see the
counterexample). -/
theorem claim3_statuses :
    ∀ (names : List String) (values : List Int) (wait : WaitMode)
      (outcomes : List PairOutcome),
    names.length = values.length →
    outcomes.length = names.length →
    (∀ oc ∈ outcomes, oc.exc = none ∨ oc.exc = some ExcClass.timeout) →
    (∀ oc ∈ outcomes, oc.exc ≠ none → oc.completed = false) →
    ∃ l, caput_many names values wait outcomes = Except.ok l ∧
      l.length = names.length ∧
      ∀ i oc, outcomes.get? i = some oc →
        l.get? i = some
          (if oc.exc = none ∧ (wait = WaitMode.all → oc.completed = true)
           then (1 : Int) else -1) := by
  intro names values wait outcomes hlen hol hexc hcomp
  unfold caput_many
  rw [if_neg (by simp [hlen]), caput_many_statuses_ok outcomes hexc]
  dsimp only
  by_cases hw : wait = WaitMode.all
  · rw [if_pos hw]
    refine ⟨_, rfl, by simp [hol], ?_⟩
    intro i oc hget
    rw [List.get?_map, hget, Option.map_some']
    have hmem : oc ∈ outcomes := List.get?_mem hget
    by_cases hc : oc.completed = true
    · have hex : oc.exc = none := by
        by_contra hne
        exact absurd hc (by simp [hcomp oc hmem hne])
      rw [if_pos hc, if_pos (by exact ⟨hex, fun _ => hc⟩)]
    · have hcf : oc.completed = false := by
        revert hc; cases oc.completed <;> simp
      rw [if_neg (by simp [hcf]), if_neg (by simp [hw, hcf])]
  · rw [if_neg hw]
    refine ⟨_, rfl, by simp [hol], ?_⟩
    intro i oc hget
    rw [List.get?_map, List.get?_map, hget, Option.map_some', Option.map_some']
    have himp : wait = WaitMode.all → oc.completed = true :=
      fun h => absurd h hw
    by_cases he : oc.exc = none
    · rw [if_pos he, if_pos rfl, if_pos ⟨he, himp⟩]
    · rw [if_neg he, if_neg (by decide), if_neg (by simp [he])]

/-- C3 witness: one timeout pair and one successful pair — statuses
[-1, 1] in input order, via the amended theorem at concrete input. -/
theorem claim3_statuses_witness :
    caput_many ["a", "b"] [1, 2] WaitMode.noWait
        [{ exc := some ExcClass.timeout, completed := false },
         { exc := none, completed := false }]
      = Except.ok [-1, 1] := by
  obtain ⟨l, hl, _, helem⟩ := claim3_statuses ["a", "b"] [1, 2]
    WaitMode.noWait
    [{ exc := some ExcClass.timeout, completed := false },
     { exc := none, completed := false }]
    rfl rfl (by decide) (by decide)
  have h0 := helem 0 { exc := some ExcClass.timeout, completed := false } rfl
  have h1 := helem 1 { exc := none, completed := false } rfl
  simp only [show (some ExcClass.timeout : Option ExcClass) ≠ none by decide] at h0
  rw [hl]
  have : l = [-1, 1] := by
    rcases l with _ | ⟨a, _ | ⟨b, _ | t⟩⟩ <;> simp_all [List.get?]
  rw [this]

end PyepicsCompat
